import Mathlib

/-!
Verification of the sched_experiment measurement pipeline.

Shallow embedding of the Python sources:
  * `log_analyzer.py` / `runtime_logger.py` — output parsing and statistics,
  * `cpuusage_monitor.py` — process-group discovery and the sampling loop,
  * `organize_log.py` — artifact correlation.

Python strings are modelled as Lean `String`/`List Char`; Python `float`
values as `ℚ` (the `str`/`float` round-trip of binary64 is exact, and the
decimal literals involved here are handled exactly); exceptions as
`Option`/`Except`.
-/

/-! ## String helpers (models of the Python `str` methods used by the code) -/

/-- Model of Python `s.split(c)` for a single-character separator: keeps empty
fields, never returns an empty list. -/
def splitOnChar (c : Char) : List Char → List (List Char)
  | [] => [[]]
  | x :: xs =>
    if x = c then [] :: splitOnChar c xs
    else
      match splitOnChar c xs with
      | [] => [[x]]
      | h :: t => (x :: h) :: t

/-- Model of Python `s.split()` (no argument): split on runs of whitespace,
discarding empty fields.  `cur` accumulates the current word reversed. -/
def pyWordsAux (cur : List Char) : List Char → List (List Char)
  | [] => if cur.isEmpty then [] else [cur.reverse]
  | c :: tl =>
    if c.isWhitespace then
      if cur.isEmpty then pyWordsAux [] tl else cur.reverse :: pyWordsAux [] tl
    else pyWordsAux (c :: cur) tl

def pyWords (cs : List Char) : List (List Char) := pyWordsAux [] cs

/-- Model of Python substring membership `pat in s`. -/
def hasSubstr (pat : List Char) : List Char → Bool
  | [] => pat.isEmpty
  | c :: tl => pat.isPrefixOf (c :: tl) || hasSubstr pat tl

def digitsVal (cs : List Char) : Nat :=
  cs.foldl (fun a c => 10 * a + (c.toNat - 48)) 0

/-- Mantissa-with-optional-exponent part of a Python float literal:
`[digits][.digits][(e|E)[+|-]digits]`, at least one mantissa digit.  The value
`i.f × 10^±x` is assembled with a single `mkRat`. -/
def pyFloatCore (cs : List Char) : Option ℚ :=
  let ipart := cs.takeWhile Char.isDigit
  let rest1 := cs.dropWhile Char.isDigit
  let fpart :=
    match rest1 with
    | '.' :: r => r.takeWhile Char.isDigit
    | _ => []
  let rest2 :=
    match rest1 with
    | '.' :: r => r.dropWhile Char.isDigit
    | _ => rest1
  if ipart.isEmpty && fpart.isEmpty then none
  else
    let mnum : Nat := digitsVal ipart * 10 ^ fpart.length + digitsVal fpart
    match rest2 with
    | [] => some (mkRat mnum (10 ^ fpart.length))
    | e :: r =>
      if e = 'e' ∨ e = 'E' then
        let negExp := r.headD ' ' = '-'
        let r2 := if r.headD ' ' = '-' ∨ r.headD ' ' = '+' then r.tail else r
        if r2.isEmpty || !r2.all Char.isDigit then none
        else if negExp then some (mkRat mnum (10 ^ fpart.length * 10 ^ digitsVal r2))
        else some (mkRat (mnum * 10 ^ digitsVal r2) (10 ^ fpart.length))
      else none

/-- Model of Python `float(s)` restricted to finite decimal literals (the only
form the measured logs contain): optional surrounding whitespace, optional
sign, decimal mantissa, optional exponent.  `none` models `ValueError`. -/
def pyFloat (cs0 : List Char) : Option ℚ :=
  let cs := (cs0.dropWhile Char.isWhitespace).reverse.dropWhile Char.isWhitespace |>.reverse
  match cs with
  | '+' :: r => pyFloatCore r
  | '-' :: r => (pyFloatCore r).map Neg.neg
  | _ => pyFloatCore cs

/-! ## OutputParser (`log_analyzer.py` lines 16-33, `runtime_logger.py` 57-73) -/

/-- Model of `x.replace('s', '')`: removes every `'s'` character. -/
def stripS (cs : List Char) : List Char := cs.filter (fun c => c ≠ 's')

/-- `parse_time`: `minutes, seconds = time_str.split('m')` then
`float(minutes) * 60 + float(seconds.replace('s', ''))`.  A split that does
not produce exactly two parts raises `ValueError` (modelled `none`), as does a
malformed float. -/
def parse_time (s : String) : Option ℚ :=
  match splitOnChar 'm' s.data with
  | [m, sec] => do
    let a ← pyFloat m
    let b ← pyFloat (stripS sec)
    pure (a * 60 + b)
  | _ => none

/-- A parsed section: the Python dict with keys `total`, `real`, `user`,
`sys`; `none` models an absent key. -/
structure ParseResult where
  total : Option ℚ
  real : Option ℚ
  user : Option ℚ
  sys : Option ℚ
  deriving DecidableEq

/-- The exceptions `parse_output` can leak: `line.split()[1]` on a line with
fewer than two fields (`IndexError`) and `float`/`parse_time` failures
(`ValueError`). -/
inductive PErr where
  | indexError
  | valueError
  deriving DecidableEq

deriving instance DecidableEq for Except

def roiMarker : List Char := "Total time spent in ROI".data

/-- One iteration of the `for line in output.split('\n')` loop shared by both
`parse_output` implementations. -/
def parseLine (r : ParseResult) (line : List Char) : Except PErr ParseResult :=
  if "real".data.isPrefixOf line then
    match (pyWords line)[1]? with
    | none => .error .indexError
    | some tok =>
      match parse_time (String.mk tok) with
      | none => .error .valueError
      | some q => .ok { r with real := some q }
  else if "user".data.isPrefixOf line then
    match (pyWords line)[1]? with
    | none => .error .indexError
    | some tok =>
      match parse_time (String.mk tok) with
      | none => .error .valueError
      | some q => .ok { r with user := some q }
  else if "sys".data.isPrefixOf line then
    match (pyWords line)[1]? with
    | none => .error .indexError
    | some tok =>
      match parse_time (String.mk tok) with
      | none => .error .valueError
      | some q => .ok { r with sys := some q }
  else if hasSubstr roiMarker line then
    match (pyWords line).getLast? with
    | none => .error .indexError
    | some tok =>
      match pyFloat (stripS tok) with
      | none => .error .valueError
      | some q => .ok { r with total := some q }
  else .ok r

/-- The `for line in output.split('\n')` loop: an uncaught exception aborts
the whole call. -/
def parseLines (r : ParseResult) : List (List Char) → Except PErr ParseResult
  | [] => .ok r
  | l :: ls =>
    match parseLine r l with
    | .error e => .error e
    | .ok r2 => parseLines r2 ls

/-- `log_analyzer.parse_output`: the dict starts as `{"total": 0}` ("in case
of failing benchmark"). -/
def la_parse_output (output : String) : Except PErr ParseResult :=
  parseLines { total := some 0, real := none, user := none, sys := none }
    (splitOnChar '\n' output.data)

/-- `runtime_logger.parse_output`: identical loop, but the dict starts empty —
no default for `total`. -/
def rt_parse_output (output : String) : Except PErr ParseResult :=
  parseLines { total := none, real := none, user := none, sys := none }
    (splitOnChar '\n' output.data)

/-! Step lemmas used to evaluate the parser on concrete text. -/

theorem parseLine_real (r : ParseResult) (line tok : List Char) (q : ℚ)
    (h1 : "real".data.isPrefixOf line = true)
    (h2 : (pyWords line)[1]? = some tok)
    (h3 : parse_time (String.mk tok) = some q) :
    parseLine r line = .ok { r with real := some q } := by
  simp [parseLine, h1, h2, h3]

theorem parseLine_user (r : ParseResult) (line tok : List Char) (q : ℚ)
    (h0 : "real".data.isPrefixOf line = false)
    (h1 : "user".data.isPrefixOf line = true)
    (h2 : (pyWords line)[1]? = some tok)
    (h3 : parse_time (String.mk tok) = some q) :
    parseLine r line = .ok { r with user := some q } := by
  simp [parseLine, h0, h1, h2, h3]

theorem parseLine_sys (r : ParseResult) (line tok : List Char) (q : ℚ)
    (h0 : "real".data.isPrefixOf line = false)
    (h1 : "user".data.isPrefixOf line = false)
    (h2 : "sys".data.isPrefixOf line = true)
    (h3 : (pyWords line)[1]? = some tok)
    (h4 : parse_time (String.mk tok) = some q) :
    parseLine r line = .ok { r with sys := some q } := by
  simp [parseLine, h0, h1, h2, h3, h4]

theorem parseLine_roi (r : ParseResult) (line tok : List Char) (q : ℚ)
    (h0 : "real".data.isPrefixOf line = false)
    (h1 : "user".data.isPrefixOf line = false)
    (h2 : "sys".data.isPrefixOf line = false)
    (h3 : hasSubstr roiMarker line = true)
    (h4 : (pyWords line).getLast? = some tok)
    (h5 : pyFloat (stripS tok) = some q) :
    parseLine r line = .ok { r with total := some q } := by
  simp [parseLine, h0, h1, h2, h3, h4, h5]

theorem parse_time_eq (s : String) (m sec : List Char) (a b : ℚ)
    (h1 : splitOnChar 'm' s.data = [m, sec])
    (h2 : pyFloat m = some a)
    (h3 : pyFloat (stripS sec) = some b) :
    parse_time s = some (a * 60 + b) := by
  simp [parse_time, h1, h2, h3]

theorem pt_0m1500s : parse_time "0m1.500s" = some (3/2) := by
  have h2 : pyFloat "0".data = some (mkRat 0 1) := by decide
  have h3 : pyFloat (stripS "1.500s".data) = some (mkRat 1500 1000) := by
    decide
  have := parse_time_eq "0m1.500s" "0".data "1.500s".data (mkRat 0 1) (mkRat 1500 1000)
    (by decide) h2 h3
  rw [this]
  norm_num [Rat.mkRat_eq_div]

theorem pt_0m1000s : parse_time "0m1.000s" = some 1 := by
  have h2 : pyFloat "0".data = some (mkRat 0 1) := by decide
  have h3 : pyFloat (stripS "1.000s".data) = some (mkRat 1000 1000) := by
    decide
  have := parse_time_eq "0m1.000s" "0".data "1.000s".data (mkRat 0 1) (mkRat 1000 1000)
    (by decide) h2 h3
  rw [this]
  norm_num [Rat.mkRat_eq_div]

theorem pt_0m0200s : parse_time "0m0.200s" = some (1/5) := by
  have h2 : pyFloat "0".data = some (mkRat 0 1) := by decide
  have h3 : pyFloat (stripS "0.200s".data) = some (mkRat 200 1000) := by
    decide
  have := parse_time_eq "0m0.200s" "0".data "0.200s".data (mkRat 0 1) (mkRat 200 1000)
    (by decide) h2 h3
  rw [this]
  norm_num [Rat.mkRat_eq_div]

example : parse_time "info" = none := by decide
example : parse_time "1.5s" = none := by decide

/-- `splitOnChar` is the identity split when the separator does not occur. -/
theorem splitOnChar_eq_single (c : Char) (cs : List Char) (h : c ∉ cs) :
    splitOnChar c cs = [cs] := by
  induction cs with
  | nil => rfl
  | cons x xs ih =>
    have hx : x ≠ c := fun he => h (he ▸ List.mem_cons_self x xs)
    have hxs : c ∉ xs := fun hm => h (List.mem_cons_of_mem x hm)
    simp [splitOnChar, hx, ih hxs]

/-- A duration token without the `m` separator is a `ValueError`:
`minutes, seconds = time_str.split('m')` cannot unpack one part. -/
theorem parse_time_no_m (tok : List Char) (h : 'm' ∉ tok) :
    parse_time (String.mk tok) = none := by
  have : splitOnChar 'm' (String.mk tok).data = [tok] := splitOnChar_eq_single 'm' tok h
  simp [parse_time, this]

theorem la_eval_T5 :
    la_parse_output "real 0m1.500s\nuser 0m1.000s\nsys 0m0.200s\nTotal time spent in ROI: 1.0s" =
      .ok ⟨some 1, some (3/2), some 1, some (1/5)⟩ := by
  have hsplit : splitOnChar '\n'
      ("real 0m1.500s\nuser 0m1.000s\nsys 0m0.200s\nTotal time spent in ROI: 1.0s").data =
      ["real 0m1.500s".data, "user 0m1.000s".data, "sys 0m0.200s".data,
        "Total time spent in ROI: 1.0s".data] := by decide
  have hroi : pyFloat (stripS "1.0s".data) = some 1 := by
    have h1 : pyFloat (stripS "1.0s".data) = some (mkRat 10 10) := by decide
    have h2 : (mkRat 10 10 : ℚ) = 1 := by norm_num [Rat.mkRat_eq_div]
    rw [h1, h2]
  have s1 : parseLine ⟨some 0, none, none, none⟩ "real 0m1.500s".data =
      .ok ⟨some 0, some (3/2), none, none⟩ :=
    parseLine_real _ _ _ _ (by decide) (by decide) pt_0m1500s
  have s2 : parseLine ⟨some 0, some (3/2), none, none⟩ "user 0m1.000s".data =
      .ok ⟨some 0, some (3/2), some 1, none⟩ :=
    parseLine_user _ _ _ _ (by decide) (by decide) (by decide) pt_0m1000s
  have s3 : parseLine ⟨some 0, some (3/2), some 1, none⟩ "sys 0m0.200s".data =
      .ok ⟨some 0, some (3/2), some 1, some (1/5)⟩ :=
    parseLine_sys _ _ _ _ (by decide) (by decide) (by decide) (by decide) pt_0m0200s
  have s4 : parseLine ⟨some 0, some (3/2), some 1, some (1/5)⟩
      "Total time spent in ROI: 1.0s".data =
      .ok ⟨some 1, some (3/2), some 1, some (1/5)⟩ :=
    parseLine_roi _ _ _ _ (by decide) (by decide) (by decide) (by decide) (by decide) hroi
  rw [la_parse_output, hsplit]
  simp only [parseLines, s1, s2, s3, s4]

theorem la_eval_T3 :
    la_parse_output "real 0m1.500s\nuser 0m1.000s\nsys 0m0.200s" =
      .ok ⟨some 0, some (3/2), some 1, some (1/5)⟩ := by
  have hsplit : splitOnChar '\n' ("real 0m1.500s\nuser 0m1.000s\nsys 0m0.200s").data =
      ["real 0m1.500s".data, "user 0m1.000s".data, "sys 0m0.200s".data] := by decide
  have s1 : parseLine ⟨some 0, none, none, none⟩ "real 0m1.500s".data =
      .ok ⟨some 0, some (3/2), none, none⟩ :=
    parseLine_real _ _ _ _ (by decide) (by decide) pt_0m1500s
  have s2 : parseLine ⟨some 0, some (3/2), none, none⟩ "user 0m1.000s".data =
      .ok ⟨some 0, some (3/2), some 1, none⟩ :=
    parseLine_user _ _ _ _ (by decide) (by decide) (by decide) pt_0m1000s
  have s3 : parseLine ⟨some 0, some (3/2), some 1, none⟩ "sys 0m0.200s".data =
      .ok ⟨some 0, some (3/2), some 1, some (1/5)⟩ :=
    parseLine_sys _ _ _ _ (by decide) (by decide) (by decide) (by decide) pt_0m0200s
  rw [la_parse_output, hsplit]
  simp only [parseLines, s1, s2, s3]

theorem rt_eval_T3 :
    rt_parse_output "real 0m1.500s\nuser 0m1.000s\nsys 0m0.200s" =
      .ok ⟨none, some (3/2), some 1, some (1/5)⟩ := by
  have hsplit : splitOnChar '\n' ("real 0m1.500s\nuser 0m1.000s\nsys 0m0.200s").data =
      ["real 0m1.500s".data, "user 0m1.000s".data, "sys 0m0.200s".data] := by decide
  have s1 : parseLine ⟨none, none, none, none⟩ "real 0m1.500s".data =
      .ok ⟨none, some (3/2), none, none⟩ :=
    parseLine_real _ _ _ _ (by decide) (by decide) pt_0m1500s
  have s2 : parseLine ⟨none, some (3/2), none, none⟩ "user 0m1.000s".data =
      .ok ⟨none, some (3/2), some 1, none⟩ :=
    parseLine_user _ _ _ _ (by decide) (by decide) (by decide) pt_0m1000s
  have s3 : parseLine ⟨none, some (3/2), some 1, none⟩ "sys 0m0.200s".data =
      .ok ⟨none, some (3/2), some 1, some (1/5)⟩ :=
    parseLine_sys _ _ _ _ (by decide) (by decide) (by decide) (by decide) pt_0m0200s
  rw [rt_parse_output, hsplit]
  simp only [parseLines, s1, s2, s3]

/-- A line without the ROI marker never changes the `total` field. -/
theorem parseLine_total_of_no_roi (r r' : ParseResult) (l : List Char)
    (hm : hasSubstr roiMarker l = false) (h : parseLine r l = .ok r') :
    r'.total = r.total := by
  unfold parseLine at h
  split at h
  · split at h
    · cases h
    · split at h
      · cases h
      · cases h
        rfl
  · split at h
    · split at h
      · cases h
      · split at h
        · cases h
        · cases h
          rfl
    · split at h
      · split at h
        · cases h
        · split at h
          · cases h
          · cases h
            rfl
      · rw [hm] at h
        simp only [Bool.false_eq_true, if_false] at h
        cases h
        rfl

/-- Over lines none of which carries the ROI marker, the loop preserves
`total`. -/
theorem parseLines_total_of_no_roi (ls : List (List Char)) :
    ∀ r r' : ParseResult, (∀ l ∈ ls, hasSubstr roiMarker l = false) →
      parseLines r ls = .ok r' → r'.total = r.total := by
  induction ls with
  | nil =>
    intro r r' _ h
    cases h
    rfl
  | cons l tl ih =>
    intro r r' hall h
    unfold parseLines at h
    revert h
    match hstep : parseLine r l with
    | .error e => intro h; cases h
    | .ok r2 =>
      intro h
      have h2 := ih r2 r' (fun x hx => hall x (List.mem_cons_of_mem l hx)) h
      have h1 := parseLine_total_of_no_roi r r2 l (hall l (List.mem_cons_self l tl)) hstep
      rw [h2, h1]

/-- When one of the three timing prefixes matches and the second
whitespace-field is absent or fails `parse_time`, the line raises. -/
theorem parseLine_raises (r : ParseResult) (line : List Char)
    (hpre : "real".data.isPrefixOf line = true ∨ "user".data.isPrefixOf line = true ∨
      "sys".data.isPrefixOf line = true)
    (htok : (pyWords line)[1]? = none ∨
      ∃ tok, (pyWords line)[1]? = some tok ∧ parse_time (String.mk tok) = none) :
    ∃ e, parseLine r line = .error e := by
  by_cases h1 : "real".data.isPrefixOf line = true
  · rcases htok with h | ⟨tok, ht, hp⟩
    · exact ⟨.indexError, by simp [parseLine, h1, h]⟩
    · exact ⟨.valueError, by simp [parseLine, h1, ht, hp]⟩
  · by_cases h2 : "user".data.isPrefixOf line = true
    · rcases htok with h | ⟨tok, ht, hp⟩
      · exact ⟨.indexError, by simp [parseLine, h1, h2, h]⟩
      · exact ⟨.valueError, by simp [parseLine, h1, h2, ht, hp]⟩
    · by_cases h3 : "sys".data.isPrefixOf line = true
      · rcases htok with h | ⟨tok, ht, hp⟩
        · exact ⟨.indexError, by simp [parseLine, h1, h2, h3, h]⟩
        · exact ⟨.valueError, by simp [parseLine, h1, h2, h3, ht, hp]⟩
      · rcases hpre with h | h | h
        · exact absurd h h1
        · exact absurd h h2
        · exact absurd h h3

/-- C5: `parseSection` on text containing `real 0m1.500s`, `user 0m1.000s`,
`sys 0m0.200s` and `Total time spent in ROI: 1.0s` yields
`{real: 1.5, user: 1.0, sys: 0.2, total: 1.0}`, and every duration of the
form `<minutes>m<seconds>s` is converted to `minutes * 60 + seconds`. -/
theorem parse_section_timing_eval :
    la_parse_output "real 0m1.500s\nuser 0m1.000s\nsys 0m0.200s\nTotal time spent in ROI: 1.0s" =
      .ok ⟨some 1, some (3/2), some 1, some (1/5)⟩ ∧
    ∀ (u : String) (m sec : List Char) (a b : ℚ),
      splitOnChar 'm' u.data = [m, sec] → pyFloat m = some a →
      pyFloat (stripS sec) = some b → parse_time u = some (a * 60 + b) :=
  ⟨la_eval_T5, fun u m sec a b h1 h2 h3 => parse_time_eq u m sec a b h1 h2 h3⟩

/-- C3 counterexample: `runtime_logger.parse_output` on marker-less text
leaves `total` absent rather than equal to 0. -/
theorem parse_section_total_missing_cex :
    rt_parse_output "real 0m1.500s\nuser 0m1.000s\nsys 0m0.200s" =
      .ok ⟨none, some (3/2), some 1, some (1/5)⟩ ∧
    ∀ r, rt_parse_output "real 0m1.500s\nuser 0m1.000s\nsys 0m0.200s" = .ok r →
      r.total ≠ some 0 := by
  refine ⟨rt_eval_T3, ?_⟩
  intro r h
  rw [rt_eval_T3] at h
  cases h
  simp

/-- C3 (amended): on marker-less text `log_analyzer.parse_output` returns
`total = 0` with the timing fields populated; `runtime_logger.parse_output`
parses the same timing fields but omits `total` entirely. -/
theorem parse_section_total_default :
    (∀ (s : String) (r : ParseResult),
        (∀ l ∈ splitOnChar '\n' s.data, hasSubstr roiMarker l = false) →
        la_parse_output s = .ok r → r.total = some 0) ∧
    la_parse_output "real 0m1.500s\nuser 0m1.000s\nsys 0m0.200s" =
      .ok ⟨some 0, some (3/2), some 1, some (1/5)⟩ ∧
    rt_parse_output "real 0m1.500s\nuser 0m1.000s\nsys 0m0.200s" =
      .ok ⟨none, some (3/2), some 1, some (1/5)⟩ := by
  refine ⟨?_, la_eval_T3, rt_eval_T3⟩
  intro s r hall h
  exact parseLines_total_of_no_roi (splitOnChar '\n' s.data)
    ⟨some 0, none, none, none⟩ r hall h

/-- C6: a duration token without the `m` separator is a fatal `ValueError`
for the section — `parse_time` raises and the exception escapes
`parse_output` (both variants), never replaced by a default. -/
theorem parse_time_missing_m_fatal :
    (∀ tok : List Char, 'm' ∉ tok → parse_time (String.mk tok) = none) ∧
    la_parse_output "real 1.5s" = .error .valueError ∧
    rt_parse_output "real 1.5s" = .error .valueError :=
  ⟨parse_time_no_m, by decide, by decide⟩

/-- C9: `parse_output` is not total — a line starting with `real`, `user` or
`sys` whose second whitespace field is absent or is no `m`-separated duration
raises (`IndexError`/`ValueError`) in both variants instead of being
skipped. -/
theorem parse_output_raises_on_malformed_line (line : List Char)
    (h0 : '\n' ∉ line)
    (hpre : "real".data.isPrefixOf line = true ∨ "user".data.isPrefixOf line = true ∨
      "sys".data.isPrefixOf line = true)
    (htok : (pyWords line)[1]? = none ∨
      ∃ tok, (pyWords line)[1]? = some tok ∧ parse_time (String.mk tok) = none) :
    (∃ e, la_parse_output (String.mk line) = .error e) ∧
    (∃ e, rt_parse_output (String.mk line) = .error e) := by
  have hsplit : splitOnChar '\n' (String.mk line).data = [line] :=
    splitOnChar_eq_single '\n' line h0
  constructor
  · obtain ⟨e, he⟩ := parseLine_raises ⟨some 0, none, none, none⟩ line hpre htok
    refine ⟨e, ?_⟩
    rw [la_parse_output, hsplit]
    simp only [parseLines, he]
  · obtain ⟨e, he⟩ := parseLine_raises ⟨none, none, none, none⟩ line hpre htok
    refine ⟨e, ?_⟩
    rw [rt_parse_output, hsplit]
    simp only [parseLines, he]

/-- C9 at the concrete log-noise line `sys info`. -/
theorem parse_output_raises_on_malformed_line_witness :
    (∃ e, la_parse_output (String.mk "sys info".data) = .error e) ∧
    (∃ e, rt_parse_output (String.mk "sys info".data) = .error e) :=
  parse_output_raises_on_malformed_line "sys info".data (by decide)
    (Or.inr (Or.inr (by decide))) (Or.inr ⟨"info".data, by decide, by decide⟩)

/-! ## StatisticsAggregator (`log_analyzer.py` lines 63-92) -/

/-- One processed trial record: the dict rows handled by
`save_processed_output` / `save_summary_output`, all four keys present. -/
structure TrialRec where
  total : ℚ
  real : ℚ
  user : ℚ
  sys : ℚ
  deriving DecidableEq

/-- `statistics.mean` on a non-empty list (call sites guarantee
non-emptiness; on `[]` it raises and the caller returns `none` instead). -/
def pyMean (xs : List ℚ) : ℚ := xs.sum / xs.length

/-- Python `max()` on a list; raises on `[]` (unreachable at the call site,
the default is a model artifact). -/
def listMax : List ℚ → ℚ
  | [] => 0
  | h :: t => t.foldl max h

/-- Python `min()` on a list. -/
def listMin : List ℚ → ℚ
  | [] => 0
  | h :: t => t.foldl min h

/-- The sample variance used by `statistics.stdev`: `Σ (x - mean)² / (n-1)`. -/
def sampleVar (xs : List ℚ) : ℚ :=
  (xs.map (fun v => (v - pyMean xs) ^ 2)).sum / ((xs.length - 1 : ℕ) : ℚ)

/-- `statistics.stdev(xs) if len(xs) > 1 else 0`, as written on each stdev
cell. -/
noncomputable def stdevEntry (xs : List ℚ) : ℝ :=
  if 1 < xs.length then Real.sqrt ((sampleVar xs : ℚ) : ℝ) else 0

structure StdevRow where
  total : ℝ
  real : ℝ
  user : ℝ
  sys : ℝ

/-- The four labelled rows `save_summary_output` writes. -/
structure Summary where
  average : TrialRec
  maxRow : TrialRec
  minRow : TrialRec
  stdevRow : StdevRow

/-- `save_summary_output`: per-field mean/max/min/stdev rows.
`statistics.mean` raises `StatisticsError` on an empty input (modelled
`none`). -/
noncomputable def save_summary_output : List TrialRec → Option Summary
  | [] => none
  | r :: tl =>
    let totals := (r :: tl).map TrialRec.total
    let reals := (r :: tl).map TrialRec.real
    let users := (r :: tl).map TrialRec.user
    let syss := (r :: tl).map TrialRec.sys
    some
      { average := ⟨pyMean totals, pyMean reals, pyMean users, pyMean syss⟩
        maxRow := ⟨listMax totals, listMax reals, listMax users, listMax syss⟩
        minRow := ⟨listMin totals, listMin reals, listMin users, listMin syss⟩
        stdevRow := ⟨stdevEntry totals, stdevEntry reals, stdevEntry users, stdevEntry syss⟩ }

theorem foldl_max_mem (a : ℚ) (l : List ℚ) : l.foldl max a ∈ a :: l := by
  induction l generalizing a with
  | nil => simp
  | cons c t ih =>
    rw [List.foldl_cons]
    rcases List.mem_cons.mp (ih (max a c)) with h | h
    · rw [h]
      rcases max_choice a c with hm | hm <;> rw [hm]
      · exact List.mem_cons_self a (c :: t)
      · exact List.mem_cons_of_mem a (List.mem_cons_self c t)
    · exact List.mem_cons_of_mem a (List.mem_cons_of_mem c h)

theorem le_foldl_max (a : ℚ) (l : List ℚ) : ∀ v ∈ a :: l, v ≤ l.foldl max a := by
  induction l generalizing a with
  | nil =>
    intro v hv
    rw [List.mem_singleton] at hv
    simp [hv]
  | cons c t ih =>
    intro v hv
    rw [List.foldl_cons]
    rcases List.mem_cons.mp hv with rfl | hv2
    · exact le_trans (le_max_left v c) (ih (max v c) _ (List.mem_cons_self _ _))
    · rcases List.mem_cons.mp hv2 with rfl | hv3
      · exact le_trans (le_max_right a v) (ih (max a v) _ (List.mem_cons_self _ _))
      · exact ih (max a c) v (List.mem_cons_of_mem _ hv3)

theorem foldl_min_mem (a : ℚ) (l : List ℚ) : l.foldl min a ∈ a :: l := by
  induction l generalizing a with
  | nil => simp
  | cons c t ih =>
    rw [List.foldl_cons]
    rcases List.mem_cons.mp (ih (min a c)) with h | h
    · rw [h]
      rcases min_choice a c with hm | hm <;> rw [hm]
      · exact List.mem_cons_self a (c :: t)
      · exact List.mem_cons_of_mem a (List.mem_cons_self c t)
    · exact List.mem_cons_of_mem a (List.mem_cons_of_mem c h)

theorem foldl_min_le (a : ℚ) (l : List ℚ) : ∀ v ∈ a :: l, l.foldl min a ≤ v := by
  induction l generalizing a with
  | nil =>
    intro v hv
    rw [List.mem_singleton] at hv
    simp [hv]
  | cons c t ih =>
    intro v hv
    rw [List.foldl_cons]
    rcases List.mem_cons.mp hv with rfl | hv2
    · exact le_trans (ih (min v c) _ (List.mem_cons_self _ _)) (min_le_left v c)
    · rcases List.mem_cons.mp hv2 with rfl | hv3
      · exact le_trans (ih (min a v) _ (List.mem_cons_self _ _)) (min_le_right a v)
      · exact ih (min a c) v (List.mem_cons_of_mem _ hv3)

/-- C4: `summarize` takes per-field mean/max/min independently and sample
standard deviation with the n−1 denominator when at least two results exist;
on `[{2,2,2,1},{4,4,4,1}]` it yields `average.total = 3`, `max.total = 4`,
`min.total = 2`, `stdev.total = sqrt 2`. -/
theorem summary_stats :
    (save_summary_output [⟨2, 2, 2, 1⟩, ⟨4, 4, 4, 1⟩]).map Summary.average =
      some ⟨3, 3, 3, 1⟩ ∧
    (save_summary_output [⟨2, 2, 2, 1⟩, ⟨4, 4, 4, 1⟩]).map Summary.maxRow =
      some ⟨4, 4, 4, 1⟩ ∧
    (save_summary_output [⟨2, 2, 2, 1⟩, ⟨4, 4, 4, 1⟩]).map Summary.minRow =
      some ⟨2, 2, 2, 1⟩ ∧
    (save_summary_output [⟨2, 2, 2, 1⟩, ⟨4, 4, 4, 1⟩]).map (fun s => s.stdevRow.total) =
      some (Real.sqrt 2) ∧
    ∀ (r : TrialRec) (tl : List TrialRec) (s : Summary),
      save_summary_output (r :: tl) = some s →
      s.average.total * ((r :: tl).length : ℚ) = ((r :: tl).map TrialRec.total).sum ∧
      s.maxRow.total ∈ (r :: tl).map TrialRec.total ∧
      (∀ v ∈ (r :: tl).map TrialRec.total, v ≤ s.maxRow.total) ∧
      s.minRow.total ∈ (r :: tl).map TrialRec.total ∧
      (∀ v ∈ (r :: tl).map TrialRec.total, s.minRow.total ≤ v) ∧
      (2 ≤ (r :: tl).length →
        s.stdevRow.total = Real.sqrt ((sampleVar ((r :: tl).map TrialRec.total) : ℚ) : ℝ)) := by
  have hvar : sampleVar [(2 : ℚ), 4] = 2 := by
    norm_num [sampleVar, pyMean]
  have hstdev : stdevEntry [(2 : ℚ), 4] = Real.sqrt 2 := by
    rw [stdevEntry, if_pos (by norm_num), hvar]
    norm_num
  have hstdev1 : stdevEntry [(1 : ℚ), 1] = 0 := by
    rw [stdevEntry, if_pos (by norm_num)]
    have : sampleVar [(1 : ℚ), 1] = 0 := by norm_num [sampleVar, pyMean]
    rw [this]
    simp
  refine ⟨?_, ?_, ?_, ?_, ?_⟩
  · simp only [save_summary_output, Option.map_some, List.map_cons, List.map_nil]
    norm_num [pyMean]
  · simp only [save_summary_output, Option.map_some, List.map_cons, List.map_nil]
    norm_num [listMax, max_def]
  · simp only [save_summary_output, Option.map_some, List.map_cons, List.map_nil]
    norm_num [listMin, min_def]
  · simp only [save_summary_output, Option.map_some, List.map_cons, List.map_nil]
    simp [hstdev]
  · intro r tl s h
    simp only [save_summary_output, Option.some.injEq] at h
    subst h
    refine ⟨?_, ?_, ?_, ?_, ?_, ?_⟩
    · have hlen : ((tl.length : ℚ) + 1) ≠ 0 := by positivity
      simp only [List.map_cons, pyMean, List.length_cons, List.length_map]
      push_cast
      rw [div_mul_cancel₀ _ hlen]
    · simpa [listMax] using foldl_max_mem r.total (tl.map TrialRec.total)
    · intro v hv
      simp only [List.map_cons] at hv
      exact le_foldl_max r.total (tl.map TrialRec.total) v hv
    · simpa [listMin] using foldl_min_mem r.total (tl.map TrialRec.total)
    · intro v hv
      simp only [List.map_cons] at hv
      exact foldl_min_le r.total (tl.map TrialRec.total) v hv
    · intro hlen2
      simp only [stdevEntry]
      rw [if_pos]
      simpa using hlen2

/-! ## Processed-trial file round trip (`log_analyzer.py` lines 50-69)

The csv layer is modelled by cells that remember the value handed to
`csv.writer`; `float(cell)` recovers a numeric cell exactly, which is the
binary64 `float(str(x)) == x` guarantee. -/

inductive Cell where
  | str (s : String)
  | num (q : ℚ)
  | nat (n : Nat)
  deriving DecidableEq

/-- The text `csv.writer` stores for a cell (`str(value)`).  Only the header
cells — always `Cell.str` — are ever read back as text below. -/
def cellText : Cell → String
  | .str s => s
  | .nat n => toString n
  | .num q => toString q

/-- `float()` applied to a cell read back from the file. -/
def cellFloat : Cell → Option ℚ
  | .num q => some q
  | .nat n => some n
  | .str s => pyFloat s.data

def processedHeader : List Cell :=
  [.str "iteration", .str "total", .str "real", .str "user", .str "sys"]

/-- The `for i, result in enumerate(results)` loop of `save_processed_output`,
writing `[i + 1, total, real, user, sys]` per record (`i0` carries the next
1-based index). -/
def processedRows (i0 : Nat) : List TrialRec → List (List Cell)
  | [] => []
  | r :: tl =>
    [Cell.nat i0, Cell.num r.total, Cell.num r.real, Cell.num r.user, Cell.num r.sys] ::
      processedRows (i0 + 1) tl

def save_processed_output (rs : List TrialRec) : List (List Cell) :=
  processedHeader :: processedRows 1 rs

/-- `csv.DictReader` row lookup: `dict(zip(header, row))[key]` — a later
duplicate key wins, a missing key raises. -/
def dictGet (header : List String) (row : List Cell) (key : String) : Option Cell :=
  ((header.zip row).reverse).lookup key

/-- One `DictReader` row turned into a record:
`float(row["total"])` … `float(row["sys"])`. -/
def readRow (header : List String) (row : List Cell) : Option TrialRec := do
  let t ← dictGet header row "total" >>= cellFloat
  let re ← dictGet header row "real" >>= cellFloat
  let u ← dictGet header row "user" >>= cellFloat
  let sy ← dictGet header row "sys" >>= cellFloat
  pure ⟨t, re, u, sy⟩

/-- The `for row in reader` loop. -/
def readRows (header : List String) : List (List Cell) → Option (List TrialRec)
  | [] => some []
  | row :: tl => do
    let r ← readRow header row
    let rest ← readRows header tl
    pure (r :: rest)

/-- `parse_processed_file`: the first line is the `DictReader` header. -/
def parse_processed_file (file : List (List Cell)) : Option (List TrialRec) :=
  match file with
  | [] => some []
  | hrow :: rows => readRows (hrow.map cellText) rows

theorem readRow_processed (i : Nat) (r : TrialRec) :
    readRow (processedHeader.map cellText)
      [Cell.nat i, Cell.num r.total, Cell.num r.real, Cell.num r.user, Cell.num r.sys] =
      some r := rfl

theorem readRows_processed (rs : List TrialRec) :
    ∀ i0 : Nat, readRows (processedHeader.map cellText) (processedRows i0 rs) = some rs := by
  induction rs with
  | nil => intro i0; rfl
  | cons r tl ih =>
    intro i0
    simp only [processedRows, readRows, readRow_processed, ih (i0 + 1), Option.bind_eq_bind,
      Option.some_bind]
    rfl

/-- C7: writing N processed trial records and re-parsing the file returns the
same N records in order, field for field. -/
theorem processed_roundtrip (rs : List TrialRec)
    (hpos : ∀ r ∈ rs, 0 ≤ r.total ∧ 0 ≤ r.real ∧ 0 ≤ r.user ∧ 0 ≤ r.sys) :
    parse_processed_file (save_processed_output rs) = some rs := by
  rw [save_processed_output, parse_processed_file]
  exact readRows_processed rs 1

/-- C7 at a concrete two-record file. -/
theorem processed_roundtrip_witness :
    parse_processed_file (save_processed_output [⟨1, 2, 3, 4⟩, ⟨5/2, 6, 7, 8⟩]) =
      some [⟨1, 2, 3, 4⟩, ⟨5/2, 6, 7, 8⟩] :=
  processed_roundtrip [⟨1, 2, 3, 4⟩, ⟨5/2, 6, 7, 8⟩] (by
    intro r hr
    rcases List.mem_cons.mp hr with rfl | hr2
    · refine ⟨by norm_num, by norm_num, by norm_num, by norm_num⟩
    · rcases List.mem_singleton.mp hr2 with rfl
      refine ⟨by norm_num, by norm_num, by norm_num, by norm_num⟩)

/-! ## ProcessGroupTracker and UtilizationSampler (`cpuusage_monitor.py`) -/

/-- The slice of the psutil environment `cpuusage_monitor.py` observes:
whether the target pid exists, the recursive-children snapshot, whether
`open(log_file, 'w')` succeeds (and the `OSError` text when not), how many
`pid_exists` polls succeed before the target vanishes, and the sampled
timestamps / per-core percentage vectors. -/
structure PsEnv where
  alive : Nat → Bool
  descendants : Nat → List Nat
  openOk : Bool
  openErrMsg : String
  iters : Nat
  stamp : Nat → String
  percpu : Nat → List ℚ
  ncpu : Nat

/-- The result of `get_process_group`: the returned list plus the
`logging.error` lines emitted.  The function catches `psutil.NoSuchProcess`,
so by construction it returns instead of raising. -/
structure GroupResult where
  group : List Nat
  errlog : List String
  deriving DecidableEq

/-- `get_process_group`: `psutil.Process(pid)` plus
`process.children(recursive=True)`; on `NoSuchProcess` logs an error and
returns `[]`. -/
def get_process_group (env : PsEnv) (pid : Nat) : GroupResult :=
  if env.alive pid then
    { group := pid :: env.descendants pid, errlog := [] }
  else
    { group := [], errlog := ["No such process with PID " ++ toString pid ++ "."] }

/-- What a `monitor_cpu_usage` run leaves behind: the header (if the sink was
opened), the data rows written, and the `logging.error` lines.  The function
catches every exception, so it is total. -/
structure MonOutcome where
  header : Option (List String)
  rows : List (String × List ℚ)
  errlog : List String

/-- `monitor_cpu_usage`: abort with an error if the group is empty; open the
sink (an `OSError` is caught by `except Exception` and logged); otherwise
write the header and one row per `while psutil.pid_exists(pid)` iteration. -/
def monitor_cpu_usage (env : PsEnv) (pid : Nat) : MonOutcome :=
  let g := get_process_group env pid
  if g.group.isEmpty then
    { header := none, rows := [],
      errlog := g.errlog ++ ["No process group found. Exiting."] }
  else if env.openOk then
    { header := some ("Timestamp" :: (List.range env.ncpu).map
        (fun i => "CPU " ++ toString i ++ " (%)")),
      rows := (List.range env.iters).map (fun t => (env.stamp t, env.percpu t)),
      errlog := g.errlog }
  else
    { header := none, rows := [],
      errlog := g.errlog ++ ["An error occurred: " ++ env.openErrMsg] }

/-- C8: when the target has already exited, `get_process_group` returns the
empty sequence, logs exactly one error, and (being a total function whose
only exception source is handled) does not raise. -/
theorem process_group_gone (env : PsEnv) (pid : Nat) (h : env.alive pid = false) :
    get_process_group env pid =
      { group := [], errlog := ["No such process with PID " ++ toString pid ++ "."] } := by
  simp [get_process_group, h]

/-- C8 at a concrete environment in which every process has exited. -/
theorem process_group_gone_witness :
    get_process_group
      { alive := fun _ => false, descendants := fun _ => [], openOk := true,
        openErrMsg := "", iters := 0, stamp := fun _ => "", percpu := fun _ => [],
        ncpu := 1 } 42 =
      { group := [], errlog := ["No such process with PID " ++ toString 42 ++ "."] } :=
  process_group_gone _ 42 rfl

/-- C2: if the sink cannot be opened for writing, the monitoring run writes
nothing (no header, no rows — it never looks as if sampling succeeded) and
the failure is reported through the error log before the function returns. -/
theorem monitor_open_failure_aborts (env : PsEnv) (pid : Nat)
    (halive : env.alive pid = true) (hopen : env.openOk = false) :
    monitor_cpu_usage env pid =
      { header := none, rows := [],
        errlog := ["An error occurred: " ++ env.openErrMsg] } := by
  simp [monitor_cpu_usage, get_process_group, halive, hopen]

/-- C2 at a concrete environment whose sink open fails. -/
theorem monitor_open_failure_aborts_witness :
    monitor_cpu_usage
      { alive := fun _ => true, descendants := fun _ => [7], openOk := false,
        openErrMsg := "Permission denied", iters := 3, stamp := fun _ => "",
        percpu := fun _ => [], ncpu := 2 } 42 =
      { header := none, rows := [],
        errlog := ["An error occurred: " ++ "Permission denied"] } :=
  monitor_open_failure_aborts _ 42 rfl rfl

/-! ## ArtifactCorrelator (`organize_log.py`) -/

/-- Python string slicing `s[:n]` / `s[n:]` by code point. -/
def pyTake (s : String) (n : Nat) : String := String.mk (s.data.take n)

def pyDrop (s : String) (n : Nat) : String := String.mk (s.data.drop n)

/-- Python `s.split(c)` returning strings. -/
def pySplitC (s : String) (c : Char) : List String :=
  (splitOnChar c s.data).map String.mk

/-- `os.path.basename`. -/
def pyBasename (s : String) : String :=
  String.mk ((splitOnChar '/' s.data).getLastD [])

/-- The file system visible to `organize_log.py`: `os.path.getsize` per path,
`none` when the call (or the later `shutil.copy` read) raises. -/
def is_empty_file (fs : String → Option Nat) (p : String) : Bool :=
  match fs p with
  | some n => n == 0
  | none => false

/-- `parse_filename_head`.  With `parts = basename(head).split('-')`:
`parts[-3]` is `parts.reverse[2]`, `parts[-2]` is `parts.reverse[1]`, and
`parts[2:-3]` drops the last three then the first two.  Fewer than three
parts raise `IndexError` (re-raised); a failing
`assert benchmark_name not in kernel_parts` raises `AssertionError` —
either way `main`'s `except` skips the entry, modelled `none`. -/
def parse_filename_head (head : String) :
    Option (String × String × String × String × String) :=
  let parts := pySplitC (pyBasename head) '-'
  if parts.length < 3 then none
  else
    let p0 := parts.getD 0 ""
    let p1 := parts.getD 1 ""
    let date := pyTake p0 4 ++ "-" ++ pyTake (pyDrop p0 4) 2 ++ "-" ++ pyDrop p0 6
    let time := pyTake p1 2 ++ ":" ++ pyDrop p1 2
    let rev := parts.reverse
    let benchmark_name := rev.getD 2 ""
    let thread_num := rev.getD 1 ""
    let kernel_parts := ((rev.drop 3).reverse).drop 2
    let kernel_name := String.intercalate "-" kernel_parts
    if benchmark_name ∈ kernel_parts then none
    else some (date, time, kernel_name, benchmark_name, thread_num)

/-- `head[:head.rfind('-')]`; `rfind` returning -1 makes that `head[:-1]`. -/
def rstripLastSeg (head : String) : String :=
  if '-' ∈ head.data then
    String.intercalate "-" ((pySplitC head '-').dropLast)
  else
    String.mk head.data.dropLast

/-- The observable effect of one iteration of `main`'s loop: the
`shutil.copy` calls performed and the `logging.error` lines. -/
structure HeadOutcome where
  copies : List (String × String)
  errlog : List String
  deriving DecidableEq

/-- One iteration of `main`'s `for filename_head in filename_heads` loop:
skip on a non-empty (or unreadable) error log; otherwise parse the head and
copy the result file and then the usage file, any exception being caught and
logged. -/
def process_head (fs : String → Option Nat) (log_dir head : String) : HeadOutcome :=
  let err_file := head ++ "-err.txt"
  if is_empty_file fs err_file = false then
    { copies := [], errlog := ["Error file is not empty: " ++ err_file] }
  else
    match parse_filename_head head with
    | none => { copies := [], errlog := ["Failed to process " ++ head] }
    | some (date, _time, kernel_name, benchmark_name, thread_num) =>
      let target_dir := log_dir ++ "/" ++ date ++ "-t" ++ thread_num
      let src1 := head ++ "-result.txt"
      let dst1 := target_dir ++ "/" ++ kernel_name ++ "--" ++ benchmark_name ++ "-raw.txt"
      match fs src1 with
      | none => { copies := [], errlog := ["Failed to process " ++ head] }
      | some _ =>
        let src2 := rstripLastSeg head ++ "-usage.csv"
        let dst2 := target_dir ++ "/" ++ kernel_name ++ "--" ++ benchmark_name ++ "-cpuusage.csv"
        match fs src2 with
        | none => { copies := [(src1, dst1)], errlog := ["Failed to process " ++ head] }
        | some _ => { copies := [(src1, dst1), (src2, dst2)], errlog := [] }

/-- A directory laid out exactly as the spec's filename convention
`<YYYYMMDD>-<HHMM>-<kernel>-<benchmark>-<threads>-result.txt` describes,
with an empty error log. -/
def fsSpecConv : String → Option Nat := fun p =>
  if p = "res/20240101-1030-mykernel-ferret-8-err.txt" then some 0
  else if p = "res/20240101-1030-mykernel-ferret-8-result.txt" then some 10
  else if p = "res/20240101-1030-mykernel-ferret-usage.csv" then some 4
  else none

/-- C1 counterexample: on a spec-convention name with kernel `mykernel`,
benchmark `ferret`, threads `8`, the code files the result in directory
`2024-01-01-tferret` under the name `--mykernel-raw.txt` — benchmark and
thread count are taken one slot too early — not under the claimed
`2024-01-01-t8/mykernel--ferret-raw.txt`. -/
theorem organize_result_copy_spec_convention_cex :
    (process_head fsSpecConv "log" "res/20240101-1030-mykernel-ferret-8").copies.map
        Prod.snd =
      ["log/2024-01-01-tferret/--mykernel-raw.txt",
        "log/2024-01-01-tferret/--mykernel-cpuusage.csv"] ∧
    "log/2024-01-01-t8/mykernel--ferret-raw.txt" ∉
      (process_head fsSpecConv "log" "res/20240101-1030-mykernel-ferret-8").copies.map
        Prod.snd := by
  constructor
  · decide
  · decide

theorem parse_filename_head_eq (head d t b th tag : String) (kparts : List String)
    (hparts : pySplitC (pyBasename head) '-' = [d, t] ++ kparts ++ [b, th, tag])
    (hb : b ∉ kparts) :
    parse_filename_head head =
      some (pyTake d 4 ++ "-" ++ pyTake (pyDrop d 4) 2 ++ "-" ++ pyDrop d 6,
        pyTake t 2 ++ ":" ++ pyDrop t 2,
        String.intercalate "-" kparts, b, th) := by
  have hrev : ([d, t] ++ kparts ++ [b, th, tag]).reverse =
      tag :: th :: b :: (kparts.reverse ++ [t, d]) := by
    simp
  have hgb : (([d, t] ++ kparts ++ [b, th, tag]).reverse).getD 2 "" = b := by
    rw [hrev]
    rfl
  have hgth : (([d, t] ++ kparts ++ [b, th, tag]).reverse).getD 1 "" = th := by
    rw [hrev]
    rfl
  have hker : (((([d, t] ++ kparts ++ [b, th, tag]).reverse).drop 3).reverse).drop 2 =
      kparts := by
    rw [hrev]
    simp
  have hlen : ¬ ([d, t] ++ kparts ++ [b, th, tag]).length < 3 := by
    simp [List.length_append]
  have hg0 : ([d, t] ++ kparts ++ [b, th, tag]).getD 0 "" = d := rfl
  have hg1 : ([d, t] ++ kparts ++ [b, th, tag]).getD 1 "" = t := rfl
  simp only [parse_filename_head, hparts, hg0, hg1, hgb, hgth, hker, if_neg hlen, if_neg hb]

/-- C1 (amended): the convention the code actually consumes carries one more
dash-segment after the thread count (matching the usage-file pairing, which
drops exactly that segment): for every head whose basename splits as
`[date, time, kernel…, benchmark, threads, tail]` with an empty paired error
log and a readable result file, the result file is copied to
`<date>-t<threads>/<kernel>--<benchmark>-raw.txt` under the log directory,
the benchmark being the third-from-last and the thread count the
second-from-last segment. -/
theorem organize_result_copy_amended (fs : String → Option Nat)
    (log_dir head d t b th tag : String) (kparts : List String) (sz : Nat)
    (hparts : pySplitC (pyBasename head) '-' = [d, t] ++ kparts ++ [b, th, tag])
    (hb : b ∉ kparts)
    (herr : fs (head ++ "-err.txt") = some 0)
    (hres : fs (head ++ "-result.txt") = some sz) :
    (head ++ "-result.txt",
      log_dir ++ "/" ++ (pyTake d 4 ++ "-" ++ pyTake (pyDrop d 4) 2 ++ "-" ++ pyDrop d 6) ++
        "-t" ++ th ++ "/" ++ String.intercalate "-" kparts ++ "--" ++ b ++ "-raw.txt") ∈
      (process_head fs log_dir head).copies := by
  have hemp : is_empty_file fs (head ++ "-err.txt") = true := by
    simp [is_empty_file, herr]
  have hparse := parse_filename_head_eq head d t b th tag kparts hparts hb
  rcases hfs2 : fs (rstripLastSeg head ++ "-usage.csv") with _ | n <;>
    simp [process_head, hemp, hparse, hres, hfs2]

/-- The concrete directory used to witness the amended C1 statement. -/
def fsCodeConv : String → Option Nat := fun p =>
  if p = "res2/20240315-0900-linux-vanilla-ferret-8-1-err.txt" then some 0
  else if p = "res2/20240315-0900-linux-vanilla-ferret-8-1-result.txt" then some 9
  else if p = "res2/20240315-0900-linux-vanilla-ferret-8-usage.csv" then some 3
  else none

/-- C1 (amended) at a concrete entry: kernel `linux-vanilla`, benchmark
`ferret`, 8 threads, trailing tag `1`. -/
theorem organize_result_copy_amended_witness :
    ("res2/20240315-0900-linux-vanilla-ferret-8-1-result.txt",
      "log2" ++ "/" ++ (pyTake "20240315" 4 ++ "-" ++ pyTake (pyDrop "20240315" 4) 2 ++ "-" ++
        pyDrop "20240315" 6) ++ "-t" ++ "8" ++ "/" ++
        String.intercalate "-" ["linux", "vanilla"] ++ "--" ++ "ferret" ++ "-raw.txt") ∈
      (process_head fsCodeConv "log2" "res2/20240315-0900-linux-vanilla-ferret-8-1").copies :=
  organize_result_copy_amended fsCodeConv "log2"
    "res2/20240315-0900-linux-vanilla-ferret-8-1" "20240315" "0900" "ferret" "8" "1"
    ["linux", "vanilla"] 9 (by decide) (by decide) (by decide) (by decide)

/-- C10: an entry whose paired error-log file is missing (its size cannot be
read) is treated exactly like one with a non-empty error log:
`is_empty_file` returns `False` on the exception, so the entry is skipped
with one logged error and no copy is performed — the same outcome a
non-empty error log produces. -/
theorem missing_err_file_skipped (fs : String → Option Nat) (log_dir head : String)
    (h : fs (head ++ "-err.txt") = none) :
    is_empty_file fs (head ++ "-err.txt") = false ∧
    process_head fs log_dir head =
      { copies := [], errlog := ["Error file is not empty: " ++ (head ++ "-err.txt")] } ∧
    ∀ (fs2 : String → Option Nat) (n : Nat), fs2 (head ++ "-err.txt") = some n → n ≠ 0 →
      process_head fs2 log_dir head = process_head fs log_dir head := by
  have hemp : is_empty_file fs (head ++ "-err.txt") = false := by
    simp [is_empty_file, h]
  refine ⟨hemp, ?_, ?_⟩
  · simp only [process_head, hemp]
    rfl
  · intro fs2 n h2 hn
    have hemp2 : is_empty_file fs2 (head ++ "-err.txt") = false := by
      simp [is_empty_file, h2, hn]
    simp [process_head, hemp, hemp2]

/-- C10 at a concrete file system that has no files at all. -/
theorem missing_err_file_skipped_witness :
    is_empty_file (fun _ => none) ("x" ++ "-err.txt") = false ∧
    process_head (fun _ => none) "log" "x" =
      { copies := [], errlog := ["Error file is not empty: " ++ ("x" ++ "-err.txt")] } ∧
    ∀ (fs2 : String → Option Nat) (n : Nat), fs2 ("x" ++ "-err.txt") = some n → n ≠ 0 →
      process_head fs2 "log" "x" = process_head (fun _ => none) "log" "x" :=
  missing_err_file_skipped (fun _ => none) "log" "x" rfl
